import Mathlib

/-!
Verification of the MTG bulk-order optimiser (`src/optimiser.py`).

This file gives a shallow embedding of the pure computational core of
`optimise_purchases`, `validate_tag_constraints`, `add_tag_constraints` and
`save_results`, and proves or refutes the frozen claims about it.

Conventions of the embedding:
* Python numbers (prices, costs) are rationals (`ℚ`); the claims under study
  do not depend on binary floating point rounding.
* Python dicts are association lists; a dict built by successive assignment
  or comprehension gives the *last* binding of a key precedence (`dictGet`).
* Python `str.lower()` is `pyLower` (ASCII case mapping, which is what
  Python does on the ASCII letters that occur in the data).
* Fallible code (dict subscription that can raise `KeyError`, subscripting a
  float, an aborted validation) is modelled with `Option`/`Except`.
-/

namespace MTG

/-- Python `str.lower()` on a single character (ASCII case mapping). -/
def pyCharLower (c : Char) : Char :=
  if 65 ≤ c.toNat ∧ c.toNat ≤ 90 then Char.ofNat (c.toNat + 32) else c

/-- Python `str.lower()`. -/
def pyLower (s : String) : String := ⟨s.data.map pyCharLower⟩

/-- `BIG_M = 9999.0` in `optimiser.py`: the sentinel price representing
unavailable cards. -/
def BIG_M : ℚ := 9999

/-- One record of the price table input `K_json`:
`{"vendor": ..., "card": ..., "price": ...}`. -/
structure PriceRecord where
  vendor : String
  card : String
  price : ℚ
deriving DecidableEq

/-- Python dict lookup, for a dict built from a sequence of key/value pairs:
the last binding of a key wins (as in a dict comprehension). -/
def dictGet {α β : Type} [DecidableEq α] (d : List (α × β)) (k : α) : Option β :=
  ((d.reverse).find? (fun p => decide (p.1 = k))).map (·.2)

/-- Line 165-167 of `optimiser.py`:
`K = {(item["vendor"], item["card"]): item["price"] for item in K_json}`. -/
def rawK (records : List PriceRecord) (v c : String) : Option ℚ :=
  ((records.reverse).find? (fun r => decide (r.vendor = v) && decide (r.card = c))).map
    (·.price)

/-- Lines 169-173 of `optimiser.py`: the per-vendor discount pass.  An entry is
multiplied by `vendor_discounts[vendor]` exactly when its vendor has a
configured discount (`if vendor in vendor_discounts`); other entries are left
untouched.  `K records discounts v c` is the value of the dict `K` at key
`(v, c)` after this pass, `none` when the key is absent. -/
def K (records : List PriceRecord) (discounts : List (String × ℚ)) (v c : String) :
    Option ℚ :=
  match dictGet discounts v with
  | some d => (rawK records v c).map (fun p => p * d)
  | none => rawK records v c

/-- Line 162: `vendors = set(item["vendor"] for item in K_json)`
(as a duplicate-free list). -/
def vendorsOf (records : List PriceRecord) : List String :=
  (records.map (·.vendor)).dedup

/-- Line 163: `all_cards = set(item["card"] for item in K_json)`. -/
def allCardsOf (records : List PriceRecord) : List String :=
  (records.map (·.card)).dedup

/-- `K.get((v, card), BIG_M)` on line 182. -/
def getPrice (records : List PriceRecord) (discounts : List (String × ℚ))
    (v c : String) : ℚ :=
  (K records discounts v c).getD BIG_M

/-- Python builtin binary `min`. -/
def qmin (a b : ℚ) : ℚ := if a ≤ b then a else b

/-- Line 182: `min_price = min(K.get((v, card), BIG_M) for v in vendors)`.
For a card of `all_cards` the vendor list is nonempty; the `[]` branch (where
Python `min` would raise on an empty sequence) is unreachable there and is
given the sentinel as an arbitrary value. -/
def minPrice (records : List PriceRecord) (discounts : List (String × ℚ))
    (c : String) : ℚ :=
  match (vendorsOf records).map (fun v => getPrice records discounts v c) with
  | [] => BIG_M
  | q :: qs => qs.foldl qmin q

/-- Line 159/160: `set(c.lower() for c in cards)` (kept as a list; only
membership is ever used). -/
def lowerSet (l : List String) : List String := l.map pyLower

/-- Lines 181-195, bucket `available_mandatory`: cards of `all_cards` whose
minimum price is strictly below `BIG_M` and which occur (verbatim) in the
lowercased mandatory list. -/
def availableMandatory (records : List PriceRecord) (discounts : List (String × ℚ))
    (mand : List String) : List String :=
  (allCardsOf records).filter
    (fun c => decide (minPrice records discounts c < BIG_M)
      && decide (c ∈ lowerSet mand))

/-- Lines 181-195, bucket `unavailable_mandatory` (`min_price >= BIG_M`). -/
def unavailableMandatory (records : List PriceRecord) (discounts : List (String × ℚ))
    (mand : List String) : List String :=
  (allCardsOf records).filter
    (fun c => decide (BIG_M ≤ minPrice records discounts c)
      && decide (c ∈ lowerSet mand))

/-- Lines 181-195, bucket `available_optional`: the `elif is_optional` branch,
so the card must not be mandatory. -/
def availableOptional (records : List PriceRecord) (discounts : List (String × ℚ))
    (mand opt : List String) : List String :=
  (allCardsOf records).filter
    (fun c => decide (minPrice records discounts c < BIG_M)
      && !decide (c ∈ lowerSet mand) && decide (c ∈ lowerSet opt))

/-- Lines 181-195, bucket `unavailable_optional`. -/
def unavailableOptional (records : List PriceRecord) (discounts : List (String × ℚ))
    (mand opt : List String) : List String :=
  (allCardsOf records).filter
    (fun c => decide (BIG_M ≤ minPrice records discounts c)
      && !decide (c ∈ lowerSet mand) && decide (c ∈ lowerSet opt))

/-- Line 198: `cards = set(available_mandatory + available_optional)` — the
candidate set of the optimisation.  The two buckets are disjoint sublists of
the duplicate-free `all_cards`, so plain concatenation is the set. -/
def candidateCards (records : List PriceRecord) (discounts : List (String × ℚ))
    (mand opt : List String) : List String :=
  availableMandatory records discounts mand ++ availableOptional records discounts mand opt

/-- Line 199: `unavailable_cards = unavailable_mandatory + unavailable_optional`. -/
def unavailableCards (records : List PriceRecord) (discounts : List (String × ℚ))
    (mand opt : List String) : List String :=
  unavailableMandatory records discounts mand ++ unavailableOptional records discounts mand opt

/-- A per-tag constraint entry `{minimum, maximum, target}`; a key absent from
the Python dict is `none`. -/
structure TagConstraint where
  minimum : Option Int := none
  maximum : Option Int := none
  target : Option Int := none
deriving DecidableEq

/-- `card_tags.get(c.lower(), [])`. -/
def tagsOf (cardTags : List (String × List String)) (c : String) : List String :=
  (dictGet cardTags (pyLower c)).getD []

/-- `[c for c in l if tag in card_tags.get(c.lower(), [])]`. -/
def withTag (cardTags : List (String × List String)) (tag : String)
    (l : List String) : List String :=
  l.filter (fun c => decide (tag ∈ tagsOf cardTags c))

/-- The individual error messages appended by `validate_tag_constraints`,
kept structured (constructor and arguments instead of the rendered f-string);
each carries the offending tag and the data interpolated into the message. -/
inductive TagError where
  | targetOvercommitted (tag : String) (target : Int) (mandWithTag : List String)
  | targetShortfall (tag : String) (target : Int) (mandCount optCount : Nat)
  | minimumShortfall (tag : String) (minimum : Int) (mandCount optCount : Nat)
  | maximumExceeded (tag : String) (maximum : Int) (mandWithTag : List String)
  | minAboveMax (tag : String) (minimum maximum : Int)
deriving DecidableEq

/-- The tag an error message is about. -/
def TagError.tagOf : TagError → String
  | .targetOvercommitted tag _ _ => tag
  | .targetShortfall tag _ _ _ => tag
  | .minimumShortfall tag _ _ _ => tag
  | .maximumExceeded tag _ _ => tag
  | .minAboveMax tag _ _ => tag

/-- Lines 24-71 of `optimiser.py`, the body of the per-tag loop of
`validate_tag_constraints`: the errors this tag contributes, in order. -/
def tagErrorsFor (cardTags : List (String × List String)) (avM avO : List String)
    (tag : String) (tc : TagConstraint) : List TagError :=
  let mwt := withTag cardTags tag avM
  let owt := withTag cardTags tag avO
  let mandCount := mwt.length
  let total := mandCount + owt.length
  (match tc.target with
    | some t =>
      if (mandCount : Int) > t then [.targetOvercommitted tag t mwt]
      else if (total : Int) < t then [.targetShortfall tag t mandCount owt.length]
      else []
    | none => [])
  ++ (match tc.minimum with
    | some m => if (total : Int) < m then [.minimumShortfall tag m mandCount owt.length] else []
    | none => [])
  ++ (match tc.maximum with
    | some mx => if (mandCount : Int) > mx then [.maximumExceeded tag mx mwt] else []
    | none => [])
  ++ (match tc.minimum, tc.maximum with
    | some m, some mx => if m > mx then [.minAboveMax tag m mx] else []
    | _, _ => [])

/-- The accumulated `errors` list of `validate_tag_constraints`. -/
def tagErrors (tcs : List (String × TagConstraint))
    (cardTags : List (String × List String)) (avM avO : List String) : List TagError :=
  tcs.flatMap (fun p => tagErrorsFor cardTags avM avO p.1 p.2)

/-- Lines 10-77: `validate_tag_constraints` raises a single `ValueError`
aggregating all collected errors when the list is nonempty, and returns
normally otherwise. -/
def validateTagConstraints (tcs : List (String × TagConstraint))
    (cardTags : List (String × List String)) (avM avO : List String) :
    Except (List TagError) Unit :=
  let es := tagErrors tcs cardTags avM avO
  if es.isEmpty then Except.ok () else Except.error es

/-- Line 74: the single aggregated message text raised by the validator,
given the rendered per-error lines. -/
def validationMessage (lines : List String) : String :=
  "Tag constraint validation failed:\n   - " ++ String.intercalate "\n   - " lines

/-- One constraint of the MILP model, as constructed by `optimise_purchases`
(lines 246-266) and `add_tag_constraints` (lines 93-115).  Tag constraints
store the data the source resolves at build time: the count of mandatory
cards bearing the tag and the list of optional cards bearing it. -/
inductive Constr where
  | mandOnce (c : String)
  | optLink (c : String)
  | optQuota (k : Nat) (opts : List String)
  | tagTarget (base : Nat) (opts : List String) (t : Int)
  | tagMin (base : Nat) (opts : List String) (m : Int)
  | tagMax (base : Nat) (opts : List String) (mx : Int)
  | link (v : String) (c : String)
deriving DecidableEq

/-- A 0/1 assignment to the binary decision variables: `z[(v, c)]` purchase,
`x[v]` vendor activation, `y[c]` optional-card selection. -/
structure Assign where
  z : String → String → Bool
  x : String → Bool
  y : String → Bool

/-- Value of a binary variable as an integer. -/
def bInt (b : Bool) : Int := if b then 1 else 0

/-- `lpSum(z[v, c] for v in vendors)`. -/
def zSum (vs : List String) (a : Assign) (c : String) : Int :=
  (vs.map (fun v => bInt (a.z v c))).sum

/-- `lpSum(y[c] for c in opts)`. -/
def ySum (opts : List String) (a : Assign) : Int :=
  (opts.map (fun c => bInt (a.y c))).sum

/-- Satisfaction of one model constraint by an assignment. -/
def Constr.sat (vs : List String) (a : Assign) : Constr → Prop
  | .mandOnce c => zSum vs a c = 1
  | .optLink c => zSum vs a c = bInt (a.y c)
  | .optQuota k opts => (k : Int) ≤ ySum opts a
  | .tagTarget base opts t => (base : Int) + ySum opts a = t
  | .tagMin base opts m => m ≤ (base : Int) + ySum opts a
  | .tagMax base opts mx => (base : Int) + ySum opts a ≤ mx
  | .link v c => bInt (a.z v c) ≤ bInt (a.x v)

instance instDecidableSat (vs : List String) (a : Assign) :
    ∀ C : Constr, Decidable (Constr.sat vs a C)
  | .mandOnce c => inferInstanceAs (Decidable (zSum vs a c = 1))
  | .optLink c => inferInstanceAs (Decidable (zSum vs a c = bInt (a.y c)))
  | .optQuota k opts => inferInstanceAs (Decidable ((k : Int) ≤ ySum opts a))
  | .tagTarget base opts t => inferInstanceAs (Decidable ((base : Int) + ySum opts a = t))
  | .tagMin base opts m => inferInstanceAs (Decidable (m ≤ (base : Int) + ySum opts a))
  | .tagMax base opts mx => inferInstanceAs (Decidable ((base : Int) + ySum opts a ≤ mx))
  | .link v c => inferInstanceAs (Decidable (bInt (a.z v c) ≤ bInt (a.x v)))

/-- Lines 93-115, `add_tag_constraints`: per tag, an exact `target` constraint
when `target` is present, otherwise `minimum`/`maximum` constraints as
present. -/
def tagCs (tcs : List (String × TagConstraint))
    (cardTags : List (String × List String)) (avM avO : List String) : List Constr :=
  tcs.flatMap (fun p =>
    let mwt := withTag cardTags p.1 avM
    let owt := withTag cardTags p.1 avO
    match p.2.target with
    | some t => [Constr.tagTarget mwt.length owt t]
    | none =>
      (match p.2.minimum with
        | some m => [Constr.tagMin mwt.length owt m]
        | none => [])
      ++ (match p.2.maximum with
        | some mx => [Constr.tagMax mwt.length owt mx]
        | none => []))

/-- Lines 246-266 of `optimise_purchases`: the constraint list of the model,
in source order: exactly-once per available mandatory card, selection link per
available optional card, the clamped optional-quota constraint (only when
`available_optional` is nonempty and `min_optional_cards > 0`), the tag
constraints (only when `tag_constraints` is nonempty), and the vendor
activation links over all vendor/candidate pairs. -/
def buildConstraints (vs cardsList avM avO : List String) (minOpt : Nat)
    (tcs : List (String × TagConstraint))
    (cardTags : List (String × List String)) : List Constr :=
  (avM.map Constr.mandOnce)
  ++ (avO.map Constr.optLink)
  ++ (if avO ≠ [] ∧ 0 < minOpt then [Constr.optQuota (min minOpt avO.length) avO] else [])
  ++ (if tcs.isEmpty then [] else tagCs tcs cardTags avM avO)
  ++ (vs.flatMap (fun v => cardsList.map (fun c => Constr.link v c)))

/-- An assignment is feasible for the built model when it satisfies every
constraint of `buildConstraints`. -/
def feasible (vs cardsList avM avO : List String) (minOpt : Nat)
    (tcs : List (String × TagConstraint))
    (cardTags : List (String × List String)) (a : Assign) : Prop :=
  ∀ C ∈ buildConstraints vs cardsList avM avO minOpt tcs cardTags, Constr.sat vs a C

instance instDecidableFeasible (vs cardsList avM avO : List String) (minOpt : Nat)
    (tcs : List (String × TagConstraint)) (cardTags : List (String × List String))
    (a : Assign) :
    Decidable (feasible vs cardsList avM avO minOpt tcs cardTags a) := by
  unfold feasible
  infer_instance

/-- Value of a binary variable as a rational, for the cost expressions. -/
def bQ (b : Bool) : ℚ := if b then 1 else 0

/-- `shipping_costs.get(v, 0)` on the resolved (scalar-valued) shipping dict,
as used on line 242 and in `save_results`. -/
def shipCost (ship : List (String × ℚ)) (v : String) : ℚ :=
  (dictGet ship v).getD 0

/-- The coefficient `K[v, c]` of the objective (line 241).  The Python
subscription raises `KeyError` when the key is absent; the model is only ever
built on tables that are total on `vendors × cards` (the scraper emits the
full cross product), and theorems about the objective carry that totality as
a hypothesis, under which the `getD 0` default is never taken. -/
def objPrice (records : List PriceRecord) (discounts : List (String × ℚ))
    (v c : String) : ℚ :=
  (K records discounts v c).getD 0

/-- Lines 240-244: the objective
`lpSum(K[v,c] * z[v,c]) + lpSum(shipping.get(v,0) * x[v]) + penalty * lpSum(x[v])`. -/
def objective (records : List PriceRecord) (discounts : List (String × ℚ))
    (vs cardsList : List String) (ship : List (String × ℚ)) (pen : ℚ)
    (a : Assign) : ℚ :=
  ((vs.flatMap (fun v => cardsList.map (fun c => objPrice records discounts v c * bQ (a.z v c)))).sum)
  + ((vs.map (fun v => shipCost ship v * bQ (a.x v))).sum)
  + pen * ((vs.map (fun v => bQ (a.x v))).sum)

/-- Line 300 of `save_results`:
`purchased_cards = [c for c in cards if z[v, c].value() == 1]`. -/
def purchasedFrom (cardsList : List String) (a : Assign) (v : String) : List String :=
  cardsList.filter (fun c => a.z v c)

/-- Line 311: the price `save_results` resolves for a purchase, by subscripting
the price dict with the lowercased key `(v.lower(), c.lower())`; `none` models
the `KeyError` when that key is absent. -/
def savePrice (records : List PriceRecord) (discounts : List (String × ℚ))
    (v c : String) : Option ℚ :=
  K records discounts (pyLower v) (pyLower c)

/-- `save_results` raises `KeyError` exactly when some vendor it reports on
(nonempty purchase list and `x[v] = 1`) has a purchased card whose lowercased
key is absent from the price dict. -/
def saveKeyError (records : List PriceRecord) (discounts : List (String × ℚ))
    (vs cardsList : List String) (a : Assign) : Prop :=
  ∃ v ∈ vs, (purchasedFrom cardsList a v ≠ [] ∧ a.x v = true)
    ∧ ∃ c ∈ purchasedFrom cardsList a v,
        savePrice records discounts v c = none

instance (records : List PriceRecord) (discounts : List (String × ℚ))
    (vs cardsList : List String) (a : Assign) :
    Decidable (saveKeyError records discounts vs cardsList a) := by
  unfold saveKeyError
  infer_instance

/-- Lines 305-323: a reported vendor subtotal: shipping cost plus the resolved
prices of the purchased cards (`getD 0` is never taken when no `KeyError`
occurs). -/
def vendorSubtotal (records : List PriceRecord) (discounts : List (String × ℚ))
    (ship : List (String × ℚ)) (cardsList : List String) (a : Assign)
    (v : String) : ℚ :=
  shipCost ship v
    + ((purchasedFrom cardsList a v).map
        (fun c => (savePrice records discounts v c).getD 0)).sum

/-- Lines 292-325: the grand total `total_cost` written by `save_results` —
the sum of `vendorSubtotal` over exactly the vendors with a nonempty purchase
list and `x[v] = 1`. -/
def reportedTotal (records : List PriceRecord) (discounts : List (String × ℚ))
    (vs cardsList : List String) (ship : List (String × ℚ)) (a : Assign) : ℚ :=
  (vs.map (fun v =>
    if purchasedFrom cardsList a v ≠ [] ∧ a.x v = true then
      vendorSubtotal records discounts ship cardsList a v
    else 0)).sum

/-- The number of activated vendors (`x[v] = 1`). -/
def numActivated (vs : List String) (a : Assign) : Nat :=
  (vs.filter (fun v => a.x v)).length

/-- The terminal statuses of the PuLP solver. -/
inductive LpStat where
  | optimal
  | notSolved
  | infeasible
  | unbounded
  | undefined
deriving DecidableEq

/-- `pulp.LpStatus[...]`: the raw status names. -/
def lpStatusName : LpStat → String
  | .optimal => "Optimal"
  | .notSolved => "Not Solved"
  | .infeasible => "Infeasible"
  | .unbounded => "Unbounded"
  | .undefined => "Undefined"

/-- Lines 275-280: the message of the `ValueError` raised on an infeasible
solve. -/
def infeasibleMessage (statusName : String) : String :=
  "No feasible solution found. The constraints cannot be satisfied simultaneously.\n   This may be due to conflicting tag constraints or insufficient available cards.\n   Status: " ++ statusName

/-- Lines 281-285: the message of the `ValueError` raised on any other
non-optimal status. -/
def failedMessage (statusName : String) : String :=
  "Optimization failed with status: " ++ statusName
    ++ "\n   Please check your configuration and try again."

/-- Lines 272-287: the status check after `model.solve()`.  `result` stands
for the tuple returned on line 287. -/
def checkSolveStatus {α : Type} (s : LpStat) (result : α) : Except String α :=
  if s ≠ LpStat.optimal then
    if s = LpStat.infeasible then Except.error (infeasibleMessage (lpStatusName s))
    else Except.error (failedMessage (lpStatusName s))
  else Except.ok result

/-- The solve step: `model.solve()` is invoked exactly once (line 270), so the
orchestration consumes only the first status of the stream of statuses that
successive solver invocations would return. -/
def solveOrchestrated {α : Type} (statuses : Nat → LpStat) (result : α) :
    Except String α :=
  checkSolveStatus (statuses 0) result

/-- A value of the (mutable) `shipping_costs` dict: either the raw
configuration list `[shipping cost, pickup city, pickup cost]`, or the scalar
cost the loop on lines 152-156 overwrites it with. -/
inductive ShipVal where
  | raw (shipping : ℚ) (city : String) (pickup : ℚ)
  | resolved (cost : ℚ)
deriving DecidableEq

/-- One iteration of the loop on lines 152-156.  On the raw list it selects
pickup or shipping cost; on an already-resolved scalar the source evaluates
`shipping_costs[vendor][1]`, i.e. subscripts a float, which raises
`TypeError`. -/
def resolveVendorShip (cities : List String) : ShipVal → Except String ShipVal
  | .raw s city p =>
    Except.ok (ShipVal.resolved (if city ∈ cities then p else s))
  | .resolved _ => Except.error "TypeError: float object is not subscriptable"

/-- The whole loop on lines 152-156, rewriting every vendor entry of
`shipping_costs` in place; the conversion of the mutated dict is made explicit
by returning the updated dict. -/
def resolveShipping (cities : List String) (m : List (String × ShipVal)) :
    Except String (List (String × ShipVal)) :=
  m.mapM (fun p => (resolveVendorShip cities p.2).map (fun w => (p.1, w)))

/-- The violation condition of the specification for one tag (section 4.3 of
the spec, and the wording of claim C5); stated from the claim, to be compared
with the source-derived `tagErrorsFor`. -/
def violatesTagConstraint (cardTags : List (String × List String))
    (avM avO : List String) (tag : String) (tc : TagConstraint) : Prop :=
  let mandCount := (withTag cardTags tag avM).length
  let total := mandCount + (withTag cardTags tag avO).length
  (∃ t, tc.target = some t ∧ ((mandCount : Int) > t ∨ (total : Int) < t))
  ∨ (∃ m, tc.minimum = some m ∧ (total : Int) < m)
  ∨ (∃ mx, tc.maximum = some mx ∧ (mandCount : Int) > mx)
  ∨ (∃ m mx, tc.minimum = some m ∧ tc.maximum = some mx ∧ m > mx)

/-! ## Helper lemmas -/

theorem data_append (a b : String) : (a ++ b).data = a.data ++ b.data := by
  cases a
  cases b
  rfl

theorem pyLower_fixed_of_mem_allCards {records : List PriceRecord} {c : String}
    (hlow : ∀ r ∈ records, pyLower r.card = r.card) (hc : c ∈ allCardsOf records) :
    pyLower c = c := by
  unfold allCardsOf at hc
  rw [List.mem_dedup, List.mem_map] at hc
  obtain ⟨r, hr, hrc⟩ := hc
  rw [← hrc]
  exact hlow r hr

theorem pyLower_fixed_of_mem_vendors {records : List PriceRecord} {v : String}
    (hlow : ∀ r ∈ records, pyLower r.vendor = r.vendor) (hv : v ∈ vendorsOf records) :
    pyLower v = v := by
  unfold vendorsOf at hv
  rw [List.mem_dedup, List.mem_map] at hv
  obtain ⟨r, hr, hrv⟩ := hv
  rw [← hrv]
  exact hlow r hr

/-! ## C1 -/

/-- Claim C1: the claimed invariant is that applying a vendor discount never
causes a card whose only prices are the sentinel 9999 to be classified as
available.  The code violates it: the discount pass (lines 169-173) runs
before the availability classification (lines 181-195), so with the single
price record (vendor `v`, card `c`, price 9999) and a configured discount of
1/2 for `v`, the discounted minimum is 4999.5 < 9999 and the code places `c`
in `available_mandatory`, not in an unavailable bucket.  This theorem
evaluates the embedded code at that failing input: the raw (pre-discount)
price of the only offer is exactly the sentinel, yet the card ends up
available and in the candidate set. -/
theorem c1_sentinel_reclassified_by_discount :
    rawK [⟨"v", "c", (9999 : ℚ)⟩] "v" "c" = some BIG_M
    ∧ availableMandatory [⟨"v", "c", 9999⟩] [("v", (1 : ℚ)/2)] ["c"] = ["c"]
    ∧ unavailableMandatory [⟨"v", "c", 9999⟩] [("v", (1 : ℚ)/2)] ["c"] = []
    ∧ candidateCards [⟨"v", "c", 9999⟩] [("v", (1 : ℚ)/2)] ["c"] [] = ["c"] := by
  refine ⟨by decide, ?_, ?_, ?_⟩
  · norm_num [availableMandatory, allCardsOf, minPrice, vendorsOf, getPrice, K, rawK,
      dictGet, lowerSet, BIG_M, qmin, List.filter, List.dedup]
    decide
  · norm_num [unavailableMandatory, allCardsOf, minPrice, vendorsOf, getPrice, K, rawK,
      dictGet, lowerSet, BIG_M, qmin, List.filter, List.dedup]
  · unfold candidateCards
    norm_num [availableMandatory, availableOptional, allCardsOf, minPrice, vendorsOf,
      getPrice, K, rawK, dictGet, lowerSet, BIG_M, qmin, List.filter, List.dedup]
    decide

/-! ## C4 -/

/-- Claim C4: re-running the model builder on an unchanged input is claimed to
produce an identical model.  The code cannot: the loop on lines 152-156
mutates the caller-supplied `shipping_costs` dict in place, replacing each
vendor entry `[shipping cost, pickup city, pickup cost]` with a bare scalar
cost, so a second call to `optimise_purchases` with the same arguments
evaluates `shipping_costs[vendor][1]` on a float and raises `TypeError`
instead of building any model.  This theorem evaluates the embedded shipping
resolution at such an input: the first run succeeds and resolves the entry to
the scalar 5, the second run on the mutated dict fails. -/
theorem c4_second_run_raises_type_error :
    resolveShipping [] [("v", ShipVal.raw 5 "auckland" 2)]
      = Except.ok [("v", ShipVal.resolved 5)]
    ∧ resolveShipping [] [("v", ShipVal.resolved 5)]
      = Except.error "TypeError: float object is not subscriptable" := by
  exact ⟨rfl, rfl⟩

/-! ## C2 -/

/-- Claim C2 counterexample: the claim states the four buckets are computed by
case-insensitive matching of the card name against the buyer lists.  With the
single price record (vendor `v`, card `Foo`, price 5) and mandatory list
`["FOO"]`, the card matches the mandatory list case-insensitively and is
offered below the sentinel, so the claimed classification would place it in
available-mandatory; the code compares the record card name verbatim with the
lowercased list and so matches nothing: `Foo` lands in no bucket at all. -/
theorem c2_counterexample :
    pyLower "Foo" ∈ lowerSet ["FOO"]
    ∧ minPrice [⟨"v", "Foo", 5⟩] [] "Foo" < BIG_M
    ∧ availableMandatory [⟨"v", "Foo", 5⟩] [] ["FOO"] = []
    ∧ unavailableMandatory [⟨"v", "Foo", 5⟩] [] ["FOO"] = []
    ∧ availableOptional [⟨"v", "Foo", 5⟩] [] ["FOO"] [] = []
    ∧ unavailableOptional [⟨"v", "Foo", 5⟩] [] ["FOO"] [] = [] := by
  decide

/-- Claim C2 amended: classification compares the price-record card name
verbatim against the lowercased buyer lists, so it is case-insensitive in the
buyer-list casing only.  When every record card name is already lowercase (as
the price scraper guarantees), the four buckets realise exactly the claimed
case-insensitive classification, and a card matching neither list is excluded
both from the candidate set and from the unavailable-card report. -/
theorem c2_amended_classification (records : List PriceRecord)
    (discounts : List (String × ℚ)) (mand opt : List String)
    (hlow : ∀ r ∈ records, pyLower r.card = r.card) :
    ∀ card : String,
      ((card ∈ availableMandatory records discounts mand ↔
        card ∈ allCardsOf records ∧ minPrice records discounts card < BIG_M
          ∧ pyLower card ∈ lowerSet mand)
      ∧ (card ∈ availableOptional records discounts mand opt ↔
        card ∈ allCardsOf records ∧ minPrice records discounts card < BIG_M
          ∧ pyLower card ∉ lowerSet mand ∧ pyLower card ∈ lowerSet opt)
      ∧ (card ∈ unavailableMandatory records discounts mand ↔
        card ∈ allCardsOf records ∧ BIG_M ≤ minPrice records discounts card
          ∧ pyLower card ∈ lowerSet mand)
      ∧ (card ∈ unavailableOptional records discounts mand opt ↔
        card ∈ allCardsOf records ∧ BIG_M ≤ minPrice records discounts card
          ∧ pyLower card ∉ lowerSet mand ∧ pyLower card ∈ lowerSet opt))
      ∧ (pyLower card ∉ lowerSet mand → pyLower card ∉ lowerSet opt →
          card ∉ candidateCards records discounts mand opt
          ∧ card ∉ unavailableCards records discounts mand opt) := by
  intro card
  by_cases hmem : card ∈ allCardsOf records
  · have hfix : pyLower card = card := pyLower_fixed_of_mem_allCards hlow hmem
    rw [hfix]
    constructor
    · refine ⟨?_, ?_, ?_, ?_⟩ <;>
        simp [availableMandatory, availableOptional, unavailableMandatory,
          unavailableOptional, List.mem_filter, hmem, and_assoc]
    · intro h1 h2
      constructor
      · simp [candidateCards, availableMandatory, availableOptional,
          List.mem_filter, h1, h2]
      · simp [unavailableCards, unavailableMandatory, unavailableOptional,
          List.mem_filter, h1, h2]
  · constructor
    · refine ⟨?_, ?_, ?_, ?_⟩ <;>
        simp [availableMandatory, availableOptional, unavailableMandatory,
          unavailableOptional, List.mem_filter, hmem, and_assoc]
    · intro _ _
      constructor
      · simp [candidateCards, availableMandatory, availableOptional,
          List.mem_filter, hmem]
      · simp [unavailableCards, unavailableMandatory, unavailableOptional,
          List.mem_filter, hmem]

/-- Witness for `c2_amended_classification` at a concrete lowercase input:
with the single record (vendor `v`, card `c`, price 5) and mandatory list
`["C"]`, the card is classified available-mandatory. -/
theorem c2_amended_classification_witness :
    "c" ∈ availableMandatory [⟨"v", "c", 5⟩] [] ["C"] :=
  ((c2_amended_classification [⟨"v", "c", 5⟩] [] ["C"] []
    (by decide) "c").1.1).mpr ⟨by decide, by decide, by decide⟩

/-! ## C3 -/

/-- Claim C3 counterexample: the claim states that exactly the sentinel value
9999 is recognised as not offered, so a legitimately high non-sentinel price
such as 10000 does not make a card unavailable.  The code compares with
`min_price >= BIG_M`: a card whose only offer is 10000 is classified
unavailable and excluded from the candidate set even though 10000 is not the
sentinel. -/
theorem c3_counterexample :
    (10000 : ℚ) ≠ BIG_M
    ∧ unavailableMandatory [⟨"v", "c", 10000⟩] [] ["c"] = ["c"]
    ∧ availableMandatory [⟨"v", "c", 10000⟩] [] ["c"] = []
    ∧ candidateCards [⟨"v", "c", 10000⟩] [] ["c"] [] = [] := by
  decide

/-- Claim C3 amended: a listed card is classified available if and only if its
minimum post-discount price over all vendors (an absent vendor/card pair
counting as the sentinel 9999) is strictly less than 9999; consequently every
minimum at or above 9999 — not only the exact sentinel — is treated as not
offered, and the card goes to the unavailable report instead. -/
theorem c3_amended_available_iff (records : List PriceRecord)
    (discounts : List (String × ℚ)) (mand opt : List String) (card : String)
    (hcard : card ∈ allCardsOf records)
    (hlist : card ∈ lowerSet mand ∨ card ∈ lowerSet opt) :
    (card ∈ candidateCards records discounts mand opt ↔
      minPrice records discounts card < BIG_M)
    ∧ (card ∈ unavailableCards records discounts mand opt ↔
      BIG_M ≤ minPrice records discounts card) := by
  by_cases hm : card ∈ lowerSet mand
  · constructor
    · simp [candidateCards, availableMandatory, availableOptional,
        List.mem_filter, hcard, hm]
    · simp [unavailableCards, unavailableMandatory, unavailableOptional,
        List.mem_filter, hcard, hm]
  · have ho : card ∈ lowerSet opt := hlist.resolve_left hm
    constructor
    · simp [candidateCards, availableMandatory, availableOptional,
        List.mem_filter, hcard, hm, ho]
    · simp [unavailableCards, unavailableMandatory, unavailableOptional,
        List.mem_filter, hcard, hm, ho]

/-- Witness for `c3_amended_available_iff`: with the single record (vendor
`v`, card `c`, price 5) and mandatory list `["c"]`, the card is in the
candidate set because 5 < 9999. -/
theorem c3_amended_available_iff_witness :
    "c" ∈ candidateCards [⟨"v", "c", 5⟩] [] ["c"] [] :=
  (c3_amended_available_iff [⟨"v", "c", 5⟩] [] ["c"] [] "c"
    (by decide) (Or.inl (by decide))).1.mpr (by decide)

/-! ## C5 -/

theorem tagErrorsFor_eq_nil_iff (cardTags : List (String × List String))
    (avM avO : List String) (tag : String) (tc : TagConstraint) :
    tagErrorsFor cardTags avM avO tag tc = []
      ↔ ¬ violatesTagConstraint cardTags avM avO tag tc := by
  unfold tagErrorsFor violatesTagConstraint
  cases htc : tc.target <;> cases hmin : tc.minimum <;> cases hmax : tc.maximum <;>
    simp [htc, hmin, hmax] <;> split_ifs <;> simp_all <;> omega

theorem tagOf_mem_tagErrorsFor (cardTags : List (String × List String))
    (avM avO : List String) (tag : String) (tc : TagConstraint) :
    ∀ e ∈ tagErrorsFor cardTags avM avO tag tc, e.tagOf = tag := by
  intro e he
  unfold tagErrorsFor at he
  cases htc : tc.target <;> cases hmin : tc.minimum <;> cases hmax : tc.maximum <;>
    simp [htc, hmin, hmax] at he <;>
    (try split_ifs at he) <;> (try simp at he) <;>
    (try casesm* _ ∨ _, _ ∧ _) <;> subst_vars <;> rfl

/-- Claim C5: `validate_tag_constraints` raises its single aggregated error if
and only if some tag violates one of the stated conditions (target set with
mandatory count above target or total availability below target; minimum set
with total availability below it; maximum set with mandatory count above it;
minimum above maximum when both are set), it returns normally otherwise, and
the aggregated error lists every violated tag. -/
theorem c5_validator_raises_iff (tcs : List (String × TagConstraint))
    (cardTags : List (String × List String)) (avM avO : List String) :
    (validateTagConstraints tcs cardTags avM avO = Except.ok ()
      ↔ ∀ p ∈ tcs, ¬ violatesTagConstraint cardTags avM avO p.1 p.2)
    ∧ ((∃ e, validateTagConstraints tcs cardTags avM avO = Except.error e)
      ↔ ∃ p ∈ tcs, violatesTagConstraint cardTags avM avO p.1 p.2)
    ∧ (∀ e, validateTagConstraints tcs cardTags avM avO = Except.error e →
        ∀ p ∈ tcs, violatesTagConstraint cardTags avM avO p.1 p.2 →
          p.1 ∈ e.map TagError.tagOf) := by
  have hnil : tagErrors tcs cardTags avM avO = []
      ↔ ∀ p ∈ tcs, ¬ violatesTagConstraint cardTags avM avO p.1 p.2 := by
    unfold tagErrors
    rw [List.flatMap_eq_nil_iff]
    constructor
    · intro h p hp
      rw [← tagErrorsFor_eq_nil_iff]
      exact h p hp
    · intro h p hp
      rw [tagErrorsFor_eq_nil_iff]
      exact h p hp
  refine ⟨?_, ?_, ?_⟩
  · unfold validateTagConstraints
    constructor
    · intro h
      rw [← hnil]
      by_contra hne
      rw [if_neg (by simpa [List.isEmpty_iff] using hne)] at h
      exact Except.noConfusion h
    · intro h
      rw [if_pos (by simpa [List.isEmpty_iff] using hnil.mpr h)]
  · unfold validateTagConstraints
    constructor
    · rintro ⟨e, he⟩
      by_cases hemp : (tagErrors tcs cardTags avM avO).isEmpty
      · rw [if_pos hemp] at he
        exact Except.noConfusion he
      · rw [List.isEmpty_iff] at hemp
        by_contra hno
        push_neg at hno
        exact hemp (hnil.mpr (by
          intro p hp
          exact hno p hp))
    · rintro ⟨p, hp, hviol⟩
      refine ⟨tagErrors tcs cardTags avM avO, ?_⟩
      rw [if_neg ?_]
      rw [List.isEmpty_iff]
      intro hz
      exact (tagErrorsFor_eq_nil_iff cardTags avM avO p.1 p.2).mp
        (List.flatMap_eq_nil_iff.mp hz p hp) hviol
  · intro e he p hp hviol
    have hee : e = tagErrors tcs cardTags avM avO := by
      unfold validateTagConstraints at he
      by_cases hemp : (tagErrors tcs cardTags avM avO).isEmpty
      · rw [if_pos hemp] at he
        exact Except.noConfusion he
      · rw [if_neg hemp] at he
        exact (Except.error.injEq _ _ ▸ congrArg id he) ▸ rfl
    subst hee
    have hne : tagErrorsFor cardTags avM avO p.1 p.2 ≠ [] := by
      intro hz
      exact (tagErrorsFor_eq_nil_iff cardTags avM avO p.1 p.2).mp hz hviol
    obtain ⟨err, herr⟩ := List.exists_mem_of_ne_nil _ hne
    rw [List.mem_map]
    refine ⟨err, ?_, tagOf_mem_tagErrorsFor cardTags avM avO p.1 p.2 err herr⟩
    rw [tagErrors, List.mem_flatMap]
    exact ⟨p, hp, herr⟩

/-- Witness for `c5_validator_raises_iff`: the tag `red` with `maximum = 0`
and one available mandatory card bearing the tag is a violation, and the
aggregated error lists `red`. -/
theorem c5_validator_raises_iff_witness :
    "red" ∈ (tagErrors [("red", { maximum := some 0 })] [("c", ["red"])] ["c"] []).map
      TagError.tagOf :=
  (c5_validator_raises_iff [("red", { maximum := some 0 })] [("c", ["red"])] ["c"] []).2.2
    (tagErrors [("red", { maximum := some 0 })] [("c", ["red"])] ["c"] [])
    rfl
    ("red", { maximum := some 0 }) (by decide)
    (Or.inr (Or.inr (Or.inl ⟨0, rfl, by decide⟩)))

/-! ## C6 -/

theorem validationMessage_head (lines : List String) :
    (validationMessage lines).data.head? = some 'T' := by
  unfold validationMessage
  rw [data_append]
  rfl

theorem infeasibleMessage_ne_validationMessage (lines : List String) :
    infeasibleMessage (lpStatusName LpStat.infeasible) ≠ validationMessage lines := by
  intro h
  have h1 : (infeasibleMessage (lpStatusName LpStat.infeasible)).data.head? = some 'N' := rfl
  rw [h, validationMessage_head lines] at h1
  exact absurd (Option.some.inj h1) (by decide)

theorem failedMessage_ne_validationMessage (name : String) (lines : List String) :
    failedMessage name ≠ validationMessage lines := by
  intro h
  have h1 : (failedMessage name).data.head? = some 'O' := by
    unfold failedMessage
    rw [data_append, data_append]
    rfl
  rw [h, validationMessage_head lines] at h1
  exact absurd (Option.some.inj h1) (by decide)

/-- Claim C6: after the solve, an optimal status lets `optimise_purchases`
return the solved model and extraction data; an infeasible status raises the
dedicated conflict error, whose message is distinct from every message the
static tag validator can raise; any other non-optimal status raises the
generic failure error carrying the raw status name, also distinct from every
validator message; and the outcome depends only on the first solver
invocation (no retry). -/
theorem c6_solve_status_handling (r : Nat) :
    (∀ statuses : Nat → LpStat, statuses 0 = LpStat.optimal →
      solveOrchestrated statuses r = Except.ok r)
    ∧ (∀ statuses : Nat → LpStat, statuses 0 = LpStat.infeasible →
      solveOrchestrated statuses r
          = Except.error (infeasibleMessage (lpStatusName LpStat.infeasible))
        ∧ ∀ lines : List String,
            infeasibleMessage (lpStatusName LpStat.infeasible) ≠ validationMessage lines)
    ∧ (∀ statuses : Nat → LpStat,
        statuses 0 ≠ LpStat.optimal → statuses 0 ≠ LpStat.infeasible →
      solveOrchestrated statuses r
          = Except.error (failedMessage (lpStatusName (statuses 0)))
        ∧ ∀ lines : List String,
            failedMessage (lpStatusName (statuses 0)) ≠ validationMessage lines)
    ∧ (∀ s s' : Nat → LpStat, s 0 = s' 0 →
        solveOrchestrated s r = solveOrchestrated s' r) := by
  refine ⟨?_, ?_, ?_, ?_⟩
  · intro statuses h
    simp [solveOrchestrated, checkSolveStatus, h]
  · intro statuses h
    refine ⟨?_, infeasibleMessage_ne_validationMessage⟩
    simp [solveOrchestrated, checkSolveStatus, h]
  · intro statuses h1 h2
    refine ⟨?_, failedMessage_ne_validationMessage _⟩
    simp [solveOrchestrated, checkSolveStatus, h1, h2]
  · intro s s' h
    unfold solveOrchestrated
    rw [h]

/-- Witness for `c6_solve_status_handling`: an infeasible first status yields
the dedicated conflict error, and an undefined first status yields the
generic failure error carrying the raw status name. -/
theorem c6_solve_status_handling_witness :
    solveOrchestrated (fun _ => LpStat.infeasible) 0
        = Except.error (infeasibleMessage (lpStatusName LpStat.infeasible))
    ∧ solveOrchestrated (fun _ => LpStat.undefined) 0
        = Except.error (failedMessage (lpStatusName LpStat.undefined)) :=
  ⟨((c6_solve_status_handling 0).2.1 (fun _ => LpStat.infeasible) rfl).1,
   ((c6_solve_status_handling 0).2.2.1 (fun _ => LpStat.undefined)
      (by decide) (by decide)).1⟩

/-! ## C7 -/

/-- Claim C7: whenever a positive minimum optional count is configured and the
available-optional set is nonempty, the built model contains the quota
constraint that the optional-selection sum is at least
`min(configured minimum, number of available optional cards)`; and in the
scenario with configured minimum 2 and a single available optional card the
clamped minimum is 1 and the model is still satisfiable (the solve can
succeed). -/
theorem c7_optional_quota_clamped :
    (∀ (vs cardsList avM avO : List String) (minOpt : Nat)
        (tcs : List (String × TagConstraint)) (cardTags : List (String × List String)),
      0 < minOpt → avO ≠ [] →
      Constr.optQuota (min minOpt avO.length) avO
        ∈ buildConstraints vs cardsList avM avO minOpt tcs cardTags)
    ∧ (min 2 (availableOptional [⟨"v", "o", 5⟩] [] [] ["o"]).length = 1
      ∧ availableOptional [⟨"v", "o", 5⟩] [] [] ["o"] = ["o"]
      ∧ feasible (vendorsOf [⟨"v", "o", 5⟩]) (candidateCards [⟨"v", "o", 5⟩] [] [] ["o"])
          (availableMandatory [⟨"v", "o", 5⟩] [] [])
          (availableOptional [⟨"v", "o", 5⟩] [] [] ["o"]) 2 [] []
          ⟨fun _ _ => true, fun _ => true, fun _ => true⟩) := by
  constructor
  · intro vs cardsList avM avO minOpt tcs cardTags h1 h2
    unfold buildConstraints
    rw [if_pos ⟨h2, h1⟩]
    simp [List.mem_append]
  · exact ⟨by decide, by decide, by decide⟩

/-- Witness for `c7_optional_quota_clamped`: with one available optional card
and configured minimum 2, the clamped quota constraint with bound
`min 2 1 = 1` is part of the built model. -/
theorem c7_optional_quota_clamped_witness :
    Constr.optQuota (min 2 ["o"].length) ["o"]
      ∈ buildConstraints ["v"] ["o"] [] ["o"] 2 [] [] :=
  c7_optional_quota_clamped.1 ["v"] ["o"] [] ["o"] 2 [] [] (by decide) (by decide)

/-! ## C8 -/

/-- Claim C8: in every feasible assignment of the constructed model, each
available mandatory card is purchased from exactly one vendor (its purchase
variables sum to 1 over vendors), and each available optional card has its
purchase variables summing to its selection variable, so the selection
variable is 1 exactly when one vendor purchases the card and 0 exactly when
no vendor does. -/
theorem c8_purchase_exactness (vs cardsList avM avO : List String) (minOpt : Nat)
    (tcs : List (String × TagConstraint)) (cardTags : List (String × List String))
    (a : Assign)
    (hfeas : feasible vs cardsList avM avO minOpt tcs cardTags a) :
    (∀ c ∈ avM, zSum vs a c = 1)
    ∧ (∀ c ∈ avO, zSum vs a c = bInt (a.y c)
        ∧ (a.y c = true ↔ zSum vs a c = 1)
        ∧ (a.y c = false ↔ zSum vs a c = 0)) := by
  constructor
  · intro c hc
    exact hfeas (Constr.mandOnce c)
      (List.mem_append_left _ (List.mem_append_left _ (List.mem_append_left _
        (List.mem_append_left _ (List.mem_map_of_mem Constr.mandOnce hc)))))
  · intro c hc
    have h : zSum vs a c = bInt (a.y c) :=
      hfeas (Constr.optLink c)
        (List.mem_append_left _ (List.mem_append_left _ (List.mem_append_left _
          (List.mem_append_right _ (List.mem_map_of_mem Constr.optLink hc)))))
    refine ⟨h, ?_, ?_⟩
    · cases hy : a.y c <;> rw [hy] at h <;> simp [bInt] at h <;> simp [h]
    · cases hy : a.y c <;> rw [hy] at h <;> simp [bInt] at h <;> simp [h]

/-- Witness for `c8_purchase_exactness`: a concrete feasible assignment for
one vendor and one available mandatory card purchases it exactly once. -/
theorem c8_purchase_exactness_witness :
    zSum ["v"] ⟨fun _ _ => true, fun _ => true, fun _ => false⟩ "c" = 1 :=
  (c8_purchase_exactness ["v"] ["c"] ["c"] [] 0 [] []
    ⟨fun _ _ => true, fun _ => true, fun _ => false⟩ (by decide)).1 "c" (by decide)

/-! ## C9 -/

/-- Claim C9 counterexample: the claim states that any solved instance whose
price table has a vendor or card key with an uppercase letter and a purchase
from it makes `save_results` raise `KeyError`.  With records from vendors `A`
and `a` both offering card `c`, the feasible assignment purchasing `c` from
the uppercase vendor `A` resolves its price through the lowercased key
`(a, c)`, which is present, so no `KeyError` is raised (the price of the
other vendor is silently reported instead). -/
theorem c9_counterexample :
    feasible (vendorsOf [⟨"A", "c", 5⟩, ⟨"a", "c", 7⟩])
        (candidateCards [⟨"A", "c", 5⟩, ⟨"a", "c", 7⟩] [] ["c"] [])
        (availableMandatory [⟨"A", "c", 5⟩, ⟨"a", "c", 7⟩] [] ["c"])
        (availableOptional [⟨"A", "c", 5⟩, ⟨"a", "c", 7⟩] [] ["c"] []) 0 [] []
        ⟨fun v c => decide (v = "A") && decide (c = "c"),
         fun v => decide (v = "A"), fun _ => false⟩
    ∧ pyLower "A" ≠ "A"
    ∧ (⟨fun v c => decide (v = "A") && decide (c = "c"),
        fun v => decide (v = "A"), fun _ => false⟩ : Assign).z "A" "c" = true
    ∧ ¬ saveKeyError [⟨"A", "c", 5⟩, ⟨"a", "c", 7⟩] []
        (vendorsOf [⟨"A", "c", 5⟩, ⟨"a", "c", 7⟩])
        (candidateCards [⟨"A", "c", 5⟩, ⟨"a", "c", 7⟩] [] ["c"] [])
        ⟨fun v c => decide (v = "A") && decide (c = "c"),
         fun v => decide (v = "A"), fun _ => false⟩ := by
  decide

/-- Claim C9 amended: the price lookup of `save_results` keys the price table
with the lowercased `(vendor, card)` pair, so it raises `KeyError` exactly
when a reported purchase has its lowercased pair absent from the table; in
particular when every vendor and card name of the model is entirely lowercase
and the table is total on the vendor × candidate-card pairs, every lookup
succeeds and no `KeyError` is raised. -/
theorem c9_amended_no_keyerror (records : List PriceRecord)
    (discounts : List (String × ℚ)) (vs cardsList : List String) (a : Assign)
    (hv : ∀ v ∈ vs, pyLower v = v) (hc : ∀ c ∈ cardsList, pyLower c = c)
    (htot : ∀ v ∈ vs, ∀ c ∈ cardsList, (K records discounts v c).isSome) :
    ¬ saveKeyError records discounts vs cardsList a := by
  rintro ⟨v, hvmem, ⟨-, -⟩, c, hcmem, hnone⟩
  have hcl : c ∈ cardsList := (List.mem_filter.mp hcmem).1
  have hs := htot v hvmem c hcl
  rw [← hv v hvmem, ← hc c hcl] at hs
  rw [savePrice] at hnone
  rw [hnone] at hs
  exact Bool.noConfusion hs

/-- Witness for `c9_amended_no_keyerror`: with the all-lowercase single-record
table (vendor `v`, card `c`, price 5) and the all-true assignment, no
`KeyError` occurs. -/
theorem c9_amended_no_keyerror_witness :
    ¬ saveKeyError [⟨"v", "c", 5⟩] [] ["v"] ["c"]
        ⟨fun _ _ => true, fun _ => true, fun _ => false⟩ :=
  c9_amended_no_keyerror [⟨"v", "c", 5⟩] [] ["v"] ["c"]
    ⟨fun _ _ => true, fun _ => true, fun _ => false⟩
    (by decide) (by decide) (by decide)

/-! ## C10 helper lemmas -/

theorem sum_map_update_false (g : String → Bool → ℚ) (x : String → Bool) (v : String) :
    ∀ l : List String, l.Nodup → v ∈ l →
    (l.map (fun w => g w (if w = v then false else x w))).sum
      = (l.map (fun w => g w (x w))).sum - g v (x v) + g v false := by
  intro l
  induction l with
  | nil => intro _ h; exact absurd h (List.not_mem_nil v)
  | cons w t ih =>
    intro hnd hv
    rcases List.mem_cons.mp hv with heq | hmem
    · subst heq
      have hnotin : v ∉ t := (List.nodup_cons.mp hnd).1
      have htail : t.map (fun u => g u (if u = v then false else x u))
          = t.map (fun u => g u (x u)) :=
        List.map_congr_left (fun u hu => by
          rw [if_neg (fun h : u = v => hnotin (h ▸ hu))])
      simp only [List.map_cons, List.sum_cons, htail, eq_self_iff_true, if_true]
      ring
    · have hne : w ≠ v := fun h => (List.nodup_cons.mp hnd).1 (h ▸ hmem)
      simp only [List.map_cons, List.sum_cons, if_neg hne,
        ih (List.nodup_cons.mp hnd).2 hmem]
      ring

theorem sum_filter_eq_sum_indicator (f : String → ℚ) (p : String → Bool) :
    ∀ l : List String,
    ((l.filter p).map f).sum = (l.map (fun c => f c * bQ (p c))).sum := by
  intro l
  induction l with
  | nil => rfl
  | cons c t ih =>
    cases hp : p c
    · simp [List.filter_cons, hp, ih, bQ]
    · simp [List.filter_cons, hp, ih, bQ]

theorem numActivated_cast_eq_sum (vs : List String) (a : Assign) :
    (numActivated vs a : ℚ) = (vs.map (fun v => bQ (a.x v))).sum := by
  unfold numActivated
  induction vs with
  | nil => rfl
  | cons v t ih =>
    cases hx : a.x v
    · rw [List.map_cons, List.sum_cons,
        show List.filter (fun v => a.x v) (v :: t) = List.filter (fun v => a.x v) t from by
          simp [List.filter_cons, hx],
        ih, show bQ (a.x v) = 0 from by rw [hx]; rfl]
      ring
    · rw [List.map_cons, List.sum_cons,
        show List.filter (fun v => a.x v) (v :: t) = v :: List.filter (fun v => a.x v) t from by
          simp [List.filter_cons, hx],
        List.length_cons, show bQ (a.x v) = 1 from by rw [hx]; rfl]
      push_cast
      rw [ih]
      ring

theorem sum_flatMap_eq (f : String → String → ℚ) (cs : List String) :
    ∀ vs : List String,
    (vs.flatMap (fun v => cs.map (f v))).sum
      = (vs.map (fun v => (cs.map (f v)).sum)).sum := by
  intro vs
  induction vs with
  | nil => rfl
  | cons v t ih => simp [List.flatMap_cons, List.sum_append, ih]

theorem sum_map_add_distrib (f g : String → ℚ) :
    ∀ l : List String,
    (l.map (fun v => f v + g v)).sum = (l.map f).sum + (l.map g).sum := by
  intro l
  induction l with
  | nil => simp
  | cons v t ih =>
    simp only [List.map_cons, List.sum_cons, ih]
    ring

theorem link_mem_buildConstraints {vs cardsList avM avO : List String} {minOpt : Nat}
    {tcs : List (String × TagConstraint)} {cardTags : List (String × List String)}
    {w c : String}
    (hC : Constr.link w c ∈ buildConstraints vs cardsList avM avO minOpt tcs cardTags) :
    w ∈ vs ∧ c ∈ cardsList := by
  unfold buildConstraints at hC
  simp only [List.mem_append] at hC
  rcases hC with (((h | h) | h) | h) | h
  · obtain ⟨u, _, he⟩ := List.mem_map.mp h
    exact Constr.noConfusion he
  · obtain ⟨u, _, he⟩ := List.mem_map.mp h
    exact Constr.noConfusion he
  · split_ifs at h
    · rw [List.mem_singleton] at h
      exact Constr.noConfusion h
    · exact absurd h (List.not_mem_nil _)
  · split_ifs at h
    · exact absurd h (List.not_mem_nil _)
    · obtain ⟨p, _, hin⟩ := List.mem_flatMap.mp h
      rcases htg : p.2.target with - | t
      · rw [htg] at hin
        simp only [List.mem_append] at hin
        rcases hin with hin | hin
        · rcases hmn : p.2.minimum with - | m <;> rw [hmn] at hin
          · exact absurd hin (List.not_mem_nil _)
          · rw [List.mem_singleton] at hin
            exact Constr.noConfusion hin
        · rcases hmx : p.2.maximum with - | mx <;> rw [hmx] at hin
          · exact absurd hin (List.not_mem_nil _)
          · rw [List.mem_singleton] at hin
            exact Constr.noConfusion hin
      · rw [htg] at hin
        rw [List.mem_singleton] at hin
        exact Constr.noConfusion hin
  · obtain ⟨u, hu, hin⟩ := List.mem_flatMap.mp h
    obtain ⟨d, hd, he⟩ := List.mem_map.mp hin
    injection he with h1 h2
    subst h1
    subst h2
    exact ⟨hu, hd⟩

/-! ## C10 -/

/-- Claim C10: for a solved instance (a feasible assignment that is optimal
for the built model) with nonnegative shipping costs and vendor penalty, and
with the price table all-lowercase and total on the vendor × candidate pairs
(as the scraper produces it), the grand total reported by `save_results`
equals the sum over exactly the activated vendors with at least one purchase
of shipping plus purchased card prices, which equals the optimised objective
value minus the vendor penalty times the number of activated vendors — the
per-vendor penalty is never part of the reported total. -/
theorem c10_reported_total_eq_objective_minus_penalty
    (records : List PriceRecord) (discounts : List (String × ℚ))
    (vs cardsList avM avO : List String) (minOpt : Nat)
    (tcs : List (String × TagConstraint)) (cardTags : List (String × List String))
    (ship : List (String × ℚ)) (pen : ℚ) (a : Assign)
    (hnd : vs.Nodup)
    (hfeas : feasible vs cardsList avM avO minOpt tcs cardTags a)
    (hopt : ∀ b : Assign, feasible vs cardsList avM avO minOpt tcs cardTags b →
      objective records discounts vs cardsList ship pen a
        ≤ objective records discounts vs cardsList ship pen b)
    (hship : ∀ v ∈ vs, 0 ≤ shipCost ship v) (hpen : 0 ≤ pen)
    (hv : ∀ v ∈ vs, pyLower v = v) (hc : ∀ c ∈ cardsList, pyLower c = c)
    (htot : ∀ v ∈ vs, ∀ c ∈ cardsList, (K records discounts v c).isSome) :
    reportedTotal records discounts vs cardsList ship a
      = objective records discounts vs cardsList ship pen a
        - pen * (numActivated vs a : ℚ) := by
  have hzx : ∀ v ∈ vs, ∀ c ∈ cardsList, a.z v c = true → a.x v = true := by
    intro v hvm c hcm hz
    have hmem : Constr.link v c ∈ buildConstraints vs cardsList avM avO minOpt tcs cardTags := by
      unfold buildConstraints
      apply List.mem_append_right
      rw [List.mem_flatMap]
      exact ⟨v, hvm, List.mem_map_of_mem _ hcm⟩
    have hlink := hfeas (Constr.link v c) hmem
    simp only [Constr.sat, hz] at hlink
    cases hx : a.x v
    · rw [hx] at hlink
      simp [bInt] at hlink
    · rfl
  have hidle : ∀ v ∈ vs, a.x v = true → purchasedFrom cardsList a v = [] →
      shipCost ship v = 0 := by
    intro v hvm hx hpur
    set b : Assign := ⟨a.z, fun w => if w = v then false else a.x w, a.y⟩ with hbdef
    have hzf : ∀ c ∈ cardsList, a.z v c = false := by
      intro c hcm
      simpa using List.filter_eq_nil_iff.mp hpur c hcm
    have hbfeas : feasible vs cardsList avM avO minOpt tcs cardTags b := by
      intro C hC
      have hsat := hfeas C hC
      cases C with
      | mandOnce c => exact hsat
      | optLink c => exact hsat
      | optQuota k opts => exact hsat
      | tagTarget base opts t => exact hsat
      | tagMin base opts m => exact hsat
      | tagMax base opts mx => exact hsat
      | link w c =>
        by_cases hwv : w = v
        · subst hwv
          have hcm : c ∈ cardsList := (link_mem_buildConstraints hC).2
          simp only [Constr.sat, hbdef, if_pos rfl, hzf c hcm]
          simp [bInt]
        · simp only [Constr.sat, hbdef, if_neg hwv]
          exact hsat
    have hobj : objective records discounts vs cardsList ship pen b
        = objective records discounts vs cardsList ship pen a - shipCost ship v - pen := by
      unfold objective
      have h1 : (vs.map (fun w => shipCost ship w * bQ (b.x w))).sum
          = (vs.map (fun w => shipCost ship w * bQ (a.x w))).sum
            - shipCost ship v * bQ (a.x v) + shipCost ship v * bQ false :=
        sum_map_update_false (fun w bb => shipCost ship w * bQ bb) a.x v vs hnd hvm
      have h2 : (vs.map (fun w => bQ (b.x w))).sum
          = (vs.map (fun w => bQ (a.x w))).sum - bQ (a.x v) + bQ false :=
        sum_map_update_false (fun _ bb => bQ bb) a.x v vs hnd hvm
      rw [h1, h2, hx]
      simp [bQ]
      ring
    have hle := hopt b hbfeas
    rw [hobj] at hle
    have hs := hship v hvm
    linarith
  have hpoint : ∀ v ∈ vs,
      (if purchasedFrom cardsList a v ≠ [] ∧ a.x v = true then
        vendorSubtotal records discounts ship cardsList a v else 0)
      = (cardsList.map (fun c => objPrice records discounts v c * bQ (a.z v c))).sum
        + shipCost ship v * bQ (a.x v) := by
    intro v hvm
    cases hx : a.x v
    · rw [if_neg (by simp [hx])]
      have hzz : ∀ c ∈ cardsList, a.z v c = false := by
        intro c hcm
        cases hz : a.z v c
        · rfl
        · exact absurd (hzx v hvm c hcm hz) (by simp [hx])
      have hzero : (cardsList.map (fun c => objPrice records discounts v c * bQ (a.z v c))).sum = 0 := by
        apply List.sum_eq_zero
        intro q hq
        obtain ⟨c, hcm, rfl⟩ := List.mem_map.mp hq
        rw [hzz c hcm]
        simp [bQ]
      rw [hzero, show bQ false = (0 : ℚ) from rfl]
      ring
    · by_cases hp : purchasedFrom cardsList a v = []
      · rw [if_neg (by simp [hp])]
        have hzz : ∀ c ∈ cardsList, a.z v c = false := by
          intro c hcm
          simpa using List.filter_eq_nil_iff.mp hp c hcm
        have hzero : (cardsList.map (fun c => objPrice records discounts v c * bQ (a.z v c))).sum = 0 := by
          apply List.sum_eq_zero
          intro q hq
          obtain ⟨c, hcm, rfl⟩ := List.mem_map.mp hq
          rw [hzz c hcm]
          simp [bQ]
        rw [hzero, hidle v hvm hx hp, show bQ true = (1 : ℚ) from rfl]
        ring
      · rw [if_pos ⟨hp, rfl⟩]
        unfold vendorSubtotal
        have hmc : (purchasedFrom cardsList a v).map
              (fun c => (savePrice records discounts v c).getD 0)
            = (purchasedFrom cardsList a v).map
              (fun c => objPrice records discounts v c) := by
          apply List.map_congr_left
          intro c hcm
          have hcl : c ∈ cardsList := (List.mem_filter.mp hcm).1
          rw [savePrice, hv v hvm, hc c hcl]
          rfl
        rw [hmc, purchasedFrom,
          sum_filter_eq_sum_indicator (objPrice records discounts v) (fun c => a.z v c) cardsList,
          show bQ true = (1 : ℚ) from rfl, mul_one]
        ring
  unfold reportedTotal objective
  rw [sum_flatMap_eq (fun v c => objPrice records discounts v c * bQ (a.z v c)) cardsList vs,
    numActivated_cast_eq_sum]
  rw [List.map_congr_left hpoint, sum_map_add_distrib]
  ring

/-- Witness for `c10_reported_total_eq_objective_minus_penalty`: one vendor
`v` offering the single mandatory card `c` at 10, shipping 5 and penalty 2;
purchasing it from `v` is feasible and optimal, and the reported total equals
the objective minus one penalty. -/
theorem c10_reported_total_witness :
    reportedTotal [⟨"v", "c", 10⟩] [] ["v"] ["c"] [("v", 5)]
        ⟨fun _ _ => true, fun _ => true, fun _ => false⟩
      = objective [⟨"v", "c", 10⟩] [] ["v"] ["c"] [("v", 5)] 2
          ⟨fun _ _ => true, fun _ => true, fun _ => false⟩
        - 2 * (numActivated ["v"] ⟨fun _ _ => true, fun _ => true, fun _ => false⟩ : ℚ) := by
  refine c10_reported_total_eq_objective_minus_penalty [⟨"v", "c", 10⟩] [] ["v"] ["c"]
    ["c"] [] 0 [] [] [("v", 5)] 2 ⟨fun _ _ => true, fun _ => true, fun _ => false⟩
    (by decide) (by decide) ?_ (by decide) (by decide) (by decide) (by decide) (by decide)
  intro b hb
  have h1 := hb (Constr.mandOnce "c") (by decide)
  have h2 := hb (Constr.link "v" "c") (by decide)
  simp only [Constr.sat, zSum, List.map_cons, List.map_nil, List.sum_cons,
    List.sum_nil, bInt] at h1 h2
  cases hz : b.z "v" "c"
  · rw [hz] at h1
    simp at h1
  · rw [hz] at h2
    cases hxb : b.x "v"
    · rw [hxb] at h2
      simp at h2
    · have hobj : objective [⟨"v", "c", 10⟩] [] ["v"] ["c"] [("v", 5)] 2 b
          = objective [⟨"v", "c", 10⟩] [] ["v"] ["c"] [("v", 5)] 2
            ⟨fun _ _ => true, fun _ => true, fun _ => false⟩ := by
        simp [objective, hz, hxb]
      rw [hobj]

end MTG
